import Mathlib

/-!
Verification development for the hase trace-guided replay driver.

The definitions below are a shallow embedding of `src/hase/loader.py` and
`src/hase/symbex/tracer.py`.  The external instruction-level simulator
(angr), the capstone decoder and the gdb process are modelled as oracle
parameters (`Env`, response lists), exactly at the call boundaries the
Python code uses.  Machine integers are `Nat`/`Int`; the only wrapping
arithmetic performed by the code itself (`rsp ± 8` on 64-bit register
values) is modelled with explicit `% 2 ^ 64`.
-/

set_option maxRecDepth 8000

namespace Hase

/-- Boolean string-prefix test, modelling Python `str.startswith`. -/
def strStarts (s p : String) : Bool := p.data.isPrefixOf s.data

/-- Instruction-event class (modelled from the spec, section 3: the
`hase.pt.events` module is not under `src/`; the tracer only ever
distinguishes `ptic_other` from the rest). -/
inductive InstructionClass where
  | ptic_other
  | ptic_call
  | ptic_return
  | ptic_jump
  | ptic_cond_jump
  | ptic_far_call
deriving DecidableEq, Repr

/-- One recorded control-flow event of the trace (spec section 3:
`{ip: address, class: enum}`). -/
structure Instruction where
  ip : Nat
  iclass : InstructionClass
deriving DecidableEq, Repr

/-! ## Loader (`src/hase/loader.py`) -/

/-- ELF magic bytes, `ELF_MAGIC = b"\x7fELF"`. -/
def elf_magic : List Nat := [0x7f, 0x45, 0x4c, 0x46]

/-- A coredump memory mapping as used by `loader.py`
(`{path, start, stop, page_offset}` plus the mutable `name` attribute). -/
structure LMapping where
  path : String
  name : String
  start : Nat
  stop : Nat
  page_offset : Nat
deriving DecidableEq, Repr

/-- `sysroot.joinpath(str(mapping.path)[1:])` rendered as a string. -/
def joinPath (sysroot rel : String) : String := sysroot ++ "/" ++ rel

/-- `filter_mappings` from `loader.py`: keep absolute paths that exist
under the sysroot and begin with the ELF magic; record the resolved
path in `name`.  The filesystem is the oracle `fs` (file-content
prefix by path, `none` when the file does not exist). -/
def filter_mappings (mappings : List LMapping) (fs : String → Option (List Nat))
    (sysroot : String) : List LMapping :=
  mappings.filterMap (fun mapping =>
    if ¬ strStarts mapping.path "/" then none
    else
      let binary := joinPath sysroot (mapping.path.drop 1)
      match fs binary with
      | none => none
      | some contents =>
        if contents.take 4 ≠ elf_magic then none
        else some { mapping with name := binary })

/-- `Loader.find_mapping`: first registered region containing `ip`. -/
def find_mapping (shared_objects : List LMapping) (ip : Nat) : Option LMapping :=
  shared_objects.find? (fun mapping => mapping.start ≤ ip && ip < mapping.stop)

/-- Lowercase hexadecimal rendering of a `Nat`, as Python `f"{ip:x}"`. -/
def hexStr (n : Nat) : String := String.mk (Nat.toDigits 16 n)

/-- Decimal rendering of a `Nat`, as Python `f"{offset}"`. -/
def decStr (n : Nat) : String := String.mk (Nat.toDigits 10 n)

/-- `Loader.find_location`: human-readable rendering of an address. -/
def find_location (shared_objects : List LMapping) (ip : Nat) : String :=
  match find_mapping shared_objects ip with
  | none => "0x" ++ hexStr ip ++ " (umapped)"
  | some mapping =>
    let offset := ip - mapping.start + mapping.page_offset * 4096
    "0x" ++ hexStr ip ++ " (" ++ mapping.name ++ "+" ++ decStr offset ++ ")"

/-- Errors of the embedding: each constructor names the Python exception
that the corresponding code path raises (IndexError, HaseError,
AssertionError, ValueError, or an exception from the simulator). -/
inductive RunErr where
  | indexError
  | haseError
  | stepException
  | invalidAddress
  | assertRsp
  | valueError
deriving DecidableEq, Repr

/-- Result dictionary of `Loader.load_options`. -/
structure LoadOpts where
  main_base : Nat
  force_load_libs : List String
  lib_opts : List (String × Nat)
deriving DecidableEq, Repr

/-- `Loader.load_options` body: `main = self.shared_objects[0]` is an
unguarded index (IndexError on an empty list), the remaining surviving
mappings are deduplicated by path into `lib_opts`/`force_load_libs`. -/
def load_options (shared_objects : List LMapping) : Except RunErr LoadOpts :=
  match shared_objects with
  | [] => .error .indexError
  | main :: rest =>
    let folded := rest.foldl
      (fun (acc : List (String × Nat) × List String) m =>
        if (acc.1.find? (fun p => p.1 = m.path)).isSome then acc
        else (acc.1 ++ [(m.path, m.start)], acc.2 ++ [m.path]))
      ([], [])
    .ok { main_base := main.start, force_load_libs := folded.2, lib_opts := folded.1 }

/-- `Loader.__init__` followed by `load_options`: the loader filters the
mappings once and `load_options` consumes the surviving list. -/
def loader_load_options (mappings : List LMapping) (fs : String → Option (List Nat))
    (sysroot : String) : Except RunErr LoadOpts :=
  load_options (filter_mappings mappings fs sysroot)

/-! ## Trace truncation (`Tracer.__init__`, tracer.py lines 316-325) -/

/-- The loop condition `event.ip == start or event.ip == main`, where
`start`/`main` are `elf.symbols.get(...)` results (absent symbols compare
unequal to every concrete ip, as `int == None` is `False` in Python). -/
def matchesEntry (event : Instruction) (start main : Option Nat) : Bool :=
  (match start with | some v => event.ip == v | none => false)
  || (match main with | some v => event.ip == v | none => false)

/-- The `Tracer.__init__` truncation loop: `for (idx, event) in
enumerate(self.trace): if event.ip == start or event.ip == main:
self.trace = trace[idx:]`.  The iterator is created once over the
original list, so every match reassigns `self.trace` to a suffix of the
original trace and the last match wins. -/
def truncate_trace (trace : List Instruction) (start main : Option Nat) :
    List Instruction :=
  trace.enum.foldl
    (fun acc p => if matchesEntry p.2 start main then trace.drop p.1 else acc)
    trace

/-- The index the truncation ends up using: position of the last event
matching the `_start`/`main` symbol addresses. -/
def lastEntryMatch (trace : List Instruction) (start main : Option Nat) :
    Option (Nat × Instruction) :=
  (trace.enum.filter (fun p => matchesEntry p.2 start main)).getLast?

/-! ## Debug Info Service (`CoredumpGDB` / `CoredumpAnalyzer`) -/

/-- Value of one hexadecimal digit. -/
def hexDigitVal (c : Char) : Option Nat :=
  if 48 ≤ c.toNat ∧ c.toNat ≤ 57 then some (c.toNat - 48)
  else if 97 ≤ c.toNat ∧ c.toNat ≤ 102 then some (c.toNat - 87)
  else if 65 ≤ c.toNat ∧ c.toNat ≤ 70 then some (c.toNat - 55)
  else none

/-- Hex-digit accumulation for `int(s, 16)` over a digit list. -/
def hexAccum (cs : List Char) (acc : Nat) : Option Nat :=
  match cs with
  | [] => some acc
  | c :: rest =>
    match hexDigitVal c with
    | some d => hexAccum rest (16 * acc + d)
    | none => none

/-- Python `int(s, 16)` on a token: optional `0x` prefix, at least one
hex digit, `none` models the ValueError raise. -/
def parseHexToken (cs : List Char) : Option Nat :=
  let body := match cs with
    | '0' :: 'x' :: rest => rest
    | _ => cs
  if body = [] then none else hexAccum body 0

/-- `CoredumpGDB.get_reg`: a gdb response (list of payload strings) that
is too short or whose third payload does not start with a literal
backslash-t yields the default `0`; otherwise the value token is parsed
as hex (a malformed token raises ValueError in Python). -/
def get_reg (resp : List String) : Except RunErr Nat :=
  if resp.length < 5 then .ok 0
  else
    let payload := (resp.get? 2).getD ""
    if ¬ strStarts payload "\\t" then .ok 0
    else
      match parseHexToken ((payload.data.drop 2).takeWhile (fun c => c ≠ ' ')) with
      | some v => .ok v
      | none => .error .valueError

/-- One parsed backtrace frame (only the fields the claims touch). -/
structure Frame where
  index : Nat
  func : String
deriving DecidableEq, Repr

/-- `CoredumpGDB.get_stack_base`: select the frame, then query `rsp` and
`rbp`.  `gdbResp n r` is the oracle response for `info reg r` at frame `n`. -/
def get_stack_base (gdbResp : Nat → String → List String) (n : Nat) :
    Except RunErr (Nat × Nat) := do
  let rsp ← get_reg (gdbResp n "rsp")
  let rbp ← get_reg (gdbResp n "rbp")
  return (rsp, rbp)

/-- `CoredumpAnalyzer.stack_base`: first backtrace frame whose function
name matches, else `(None, None)`. -/
def stack_base (backtrace : List Frame) (gdbResp : Nat → String → List String)
    (name : String) : Except RunErr (Option Nat × Option Nat) :=
  match backtrace.find? (fun bt => bt.func = name) with
  | some bt => do
    let rb ← get_stack_base gdbResp bt.index
    return (some rb.1, some rb.2)
  | none => .ok (none, none)

/-- The sentinel substitution in `Tracer.__init__` (lines 394-409):
`if not rbp: rbp = 0x7FFFFFFCF00` — Python falsiness covers both `None`
and `0`. -/
def default_sp (x : Option Nat) : Nat :=
  match x with
  | none => 0x7FFFFFFCF00
  | some v => if v = 0 then 0x7FFFFFFCF00 else v

/-! ## Simulator state model (`Tracer.execute` and helpers)

The angr `SimState` is external; the embedding keeps exactly the parts
`tracer.py` reads and writes: the instruction pointer, named registers
(each either concrete or symbolic — a symbolic value also carries the
concrete representative `solver.eval` would produce), 8-byte memory
loads by address, satisfiability of the constraint store, and the libc
exit-handler list. -/

/-- A register or 8-byte memory value: concrete evaluation plus the
`solver.symbolic` flag. -/
structure RegVal where
  val : Nat
  sym : Bool
deriving DecidableEq, Repr

/-- The slice of an angr `SimState` that `tracer.py` manipulates. -/
structure SimState where
  ip : Nat
  regs : String → RegVal
  mem : Int → RegVal
  sat : Bool
  exitHandlers : List Nat

/-- `setattr(state.regs, name, v)` / register assignment. -/
def setReg (s : SimState) (name : String) (v : RegVal) : SimState :=
  { s with regs := fun r => if r = name then v else s.regs r }

/-- 64-bit wrapping addition (angr register arithmetic). -/
def wadd64 (a b : Nat) : Nat := (a + b) % 2 ^ 64

/-- 64-bit wrapping subtraction (angr register arithmetic). -/
def wsub64 (a b : Nat) : Nat := (a + (2 ^ 64 - b % 2 ^ 64)) % 2 ^ 64

/-- One decoded operand of the first instruction of a block
(`capstone`: type 1 = register, 2 = immediate, 3 = memory). -/
structure Operand where
  type : Nat
  reg : String
  memDisp : Int
  memIndex : Option String
  memScale : Nat
  memBase : Option String

/-- The first decoded instruction of `state.block().capstone`. -/
structure DecodedIns where
  mnemonic : String
  opStr : String
  op0 : Operand
  op1 : Operand
  size : Nat

/-- Result of `project.factory.successors(state, num_inst=1, ...)`:
successor lists plus the `artifacts["name"]` tag of procedure steps. -/
structure StepRes where
  successors : List SimState
  unsat_successors : List SimState
  unconstrained_successors : List SimState
  artifactName : Option String

/-- The external collaborators of `Tracer`: the capstone decode of the
block at an address, the simulator single-instruction step (which may
raise — `Except Unit`), the `filter.find_function`/`find_symbol`
composition used by the IFuncResolver repair, `state.libc.max_str_len`,
and `project.loader.find_object_containing` truthiness. -/
structure Env where
  decode : Nat → DecodedIns
  step : SimState → Nat → Except Unit StepRes
  findFunction : Nat → Option Nat
  maxStrLen : Nat
  validAddr : Nat → Bool

/-- `deque(maxlen=5)` append for `self.debug_state`. -/
def pushRecent (dbg : List SimState) (s : SimState) : List SimState :=
  let d := dbg ++ [s]
  if d.length > 5 then d.drop (d.length - 5) else d

/-- Tail of the jump-table case of `repair_jump_ins`: the final
`state.memory.load(target, 8)` check against the expected destination. -/
def jumpTableFinal (state : SimState) (instruction : Instruction) (ins_s : String)
    (target : Int) : Option ((Bool × String) × SimState) :=
  let ip_mem := state.mem target
  if ¬ ip_mem.sym then
    if ip_mem.val ≠ instruction.ip then some ((true, ins_s), state)
    else some ((true, "ok"), state)
  else some ((true, ins_s), state)

/-- Base-register accumulation of the jump-table case of
`repair_jump_ins` (`if mem.base: ...`). -/
def jumpTableBase (state : SimState) (instruction : Instruction) (ins_s : String)
    (m : Operand) (target : Int) : Option ((Bool × String) × SimState) :=
  match m.memBase with
  | some baseName =>
    let reg_base := state.regs baseName
    if reg_base.sym then some ((true, ins_s), state)
    else jumpTableFinal state instruction ins_s (target + (reg_base.val : Int))
  | none => jumpTableFinal state instruction ins_s target

/-- One iteration of the `for ins in jump_ins` loop of `repair_jump_ins`
for the candidate mnemonic `ins_s` (`"jmp"` or `"call"`); `none` means
the iteration fell through without returning. -/
def jumpCase (state : SimState) (instruction : Instruction) (first_ins : DecodedIns)
    (ins_s : String) : Option ((Bool × String) × SimState) :=
  if ¬ strStarts first_ins.mnemonic ins_s then none
  else if first_ins.op0.type = 1 then
    let reg_name := first_ins.opStr
    let reg_v := state.regs reg_name
    if reg_v.sym ∨ reg_v.val ≠ instruction.ip then
      some ((true, ins_s), setReg state reg_name ⟨instruction.ip, false⟩)
    else none
  else if first_ins.op0.type = 2 then some ((true, ins_s), state)
  else if first_ins.op0.type = 3 then
    let m := first_ins.op0
    match m.memIndex with
    | some idxName =>
      let reg_index := state.regs idxName
      if reg_index.sym then some ((true, ins_s), state)
      else jumpTableBase state instruction ins_s m
        (m.memDisp + (reg_index.val * m.memScale : Nat))
    | none => jumpTableBase state instruction ins_s m m.memDisp
  else none

/-- `Tracer.repair_jump_ins` (tracer.py lines 553-626).  Returns the
`(force_jump, force_type)` pair together with the (possibly mutated)
state: the register-operand case writes the expected destination into
the register in place. -/
def repair_jump_ins (env : Env) (state : SimState)
    (previous_instruction instruction : Instruction) :
    (Bool × String) × SimState :=
  if previous_instruction.iclass = InstructionClass.ptic_other
      ∨ previous_instruction.ip ≠ state.ip then
    ((false, ""), state)
  else
    let first_ins := env.decode state.ip
    let ins_repr := first_ins.mnemonic
    if strStarts ins_repr "ret" then
      if ¬ (state.regs "rsp").sym then
        let mem := state.mem ((state.regs "rsp").val : Int)
        let jump_target := if ¬ mem.sym then mem.val else 0
        if jump_target ≠ instruction.ip then ((true, "ret"), state)
        else ((true, "ok"), state)
      else ((true, "ret"), state)
    else
      match jumpCase state instruction first_ins "jmp" with
      | some r => r
      | none =>
        match jumpCase state instruction first_ins "call" with
        | some r => r
        | none => ((false, "ok"), state)

/-- `Tracer.repair_alloca_ins`: clamp a symbolic `sub rsp/rbp, reg`
amount to `state.libc.max_str_len`. -/
def repair_alloca_ins (env : Env) (state : SimState) : SimState :=
  let first_ins := env.decode state.ip
  if first_ins.mnemonic = "sub" then
    if (first_ins.op0.reg = "rsp" ∨ first_ins.op0.reg = "rbp")
        ∧ first_ins.op1.type = 1 then
      let reg_name := first_ins.op1.reg
      let reg_v := state.regs reg_name
      if reg_v.sym then setReg state reg_name ⟨env.maxStrLen, false⟩ else state
    else state
  else state

/-- `Tracer.repair_satness`: an unsatisfiable successor gets the prior
state's constraint store (a branch of a known-feasible solver). -/
def repair_satness (old_state new_state : SimState) : SimState :=
  if ¬ new_state.sat then { new_state with sat := old_state.sat } else new_state

/-- `Tracer.repair_ip_at_syscall`: after a `syscall` instruction the
`ip_at_syscall` register is set explicitly. -/
def repair_ip_at_syscall (env : Env) (old_state new_state : SimState) : SimState :=
  if strStarts (env.decode old_state.ip).mnemonic "syscall" then
    setReg new_state "ip_at_syscall" ⟨new_state.ip, false⟩
  else new_state

/-- `Tracer.post_execute`: satness repair, then syscall-ip repair. -/
def post_execute (env : Env) (old_state state : SimState) : SimState :=
  repair_ip_at_syscall env old_state (repair_satness old_state state)

/-- `Tracer.repair_func_resolver`: an `IFuncResolver` procedure step is
re-stepped at the concrete address of the function executing two states
back in `debug_state`; failure to resolve raises `HaseError`. -/
def repair_func_resolver (env : Env) (debug_state : List SimState)
    (state : SimState) (step : StepRes) : Except RunErr StepRes :=
  if step.artifactName = some "IFuncResolver" then
    match debug_state.get? (debug_state.length - 2) with
    | none => .error .indexError
    | some back =>
      match env.findFunction back.ip with
      | some addr =>
        match env.step state addr with
        | .ok s => .ok s
        | .error _ => .error .stepException
      | none => .error .haseError
  else .ok step

/-- `Tracer.repair_exit_handler`: a summarized `exit` procedure with a
registered libc exit handler is re-stepped at the first handler. -/
def repair_exit_handler (env : Env) (state : SimState) (step : StepRes) :
    Except RunErr StepRes :=
  if step.artifactName = some "exit" then
    match state.exitHandlers with
    | [] => .ok step
    | addr :: _ =>
      match env.step state addr with
      | .ok s => .ok s
      | .error _ => .error .stepException
  else .ok step

/-- `Tracer.last_match`: accept a choice when the trace ends in a
self-loop `X, X` and the choice lands on it. -/
def last_match (trace : List Instruction) (choice : SimState)
    (instruction : Instruction) : Bool :=
  match trace.getLast?, trace.get? (trace.length - 2) with
  | some a, some b =>
    instruction == a && decide (trace.length > 2) && a.ip == b.ip
      && choice.ip == instruction.ip
  | _, _ => false

/-- `Tracer.jump_match`: the choice's address equals the expected
destination. -/
def jump_match (old_state choice_state : SimState)
    (previous_instruction instruction : Instruction) : Bool :=
  let _ := old_state
  let _ := previous_instruction
  choice_state.ip == instruction.ip

/-- The `for choice in choices` loop at the end of `Tracer.execute`,
including the final forced fallback when no choice matches. -/
def choose_successor (env : Env) (trace : List Instruction) (old_state : SimState)
    (previous_instruction instruction : Instruction)
    (choices : List SimState) (state : SimState) : SimState × SimState :=
  match choices with
  | [] =>
    let new_state := { state with ip := instruction.ip }
    (state, new_state)
  | choice :: rest =>
    if last_match trace choice instruction then (choice, choice)
    else if jump_match old_state choice previous_instruction instruction then
      (old_state, post_execute env old_state choice)
    else choose_successor env trace old_state previous_instruction instruction rest state

/-- The forced-successor synthesis of `Tracer.execute` (`if force_jump:`):
copy the state, push a synthetic return address for a forced call, pop
the stack for a forced return, and assign the instruction pointer. -/
def forcedState (env : Env) (state : SimState) (force_type : String)
    (instruction : Instruction) : SimState :=
  let new_state :=
    if force_type = "call" then
      let rsp := state.regs "rsp"
      let rspVal := wsub64 rsp.val 8
      let ret_addr := state.ip + (env.decode state.ip).size
      let s1 := setReg state "rsp" ⟨rspVal, rsp.sym⟩
      { s1 with mem := fun a => if a = (rspVal : Int) then ⟨ret_addr, false⟩ else s1.mem a }
    else if force_type = "ret" then
      let rsp := state.regs "rsp"
      setReg state "rsp" ⟨wadd64 rsp.val 8, rsp.sym⟩
    else state
  { new_state with ip := instruction.ip }

/-- `Tracer.execute` (tracer.py lines 731-799), threading `debug_state`
explicitly.  The `try` around the first `successors` call is the only
exception handler: a failing step is recovered by forcing the prior
state's instruction pointer; exceptions of the later repair calls
propagate (`Except`). -/
def execute (env : Env) (trace : List Instruction) (debug_state : List SimState)
    (state : SimState) (previous_instruction instruction : Instruction) :
    Except RunErr (List SimState × SimState × SimState) :=
  let debug_state := pushRecent debug_state state
  let fj := repair_jump_ins env state previous_instruction instruction
  let force_jump := fj.1.1
  let force_type := fj.1.2
  let state := repair_alloca_ins env fj.2
  let addr := previous_instruction.ip
  match env.step state addr with
  | .error _ =>
    let new_state := { state with ip := instruction.ip }
    let new_state := post_execute env state new_state
    .ok (debug_state, state, new_state)
  | .ok step0 =>
    if force_jump then
      let new_state := forcedState env state force_type instruction
      let choices := [new_state]
      let pair := choose_successor env trace state previous_instruction instruction choices state
      .ok (debug_state, pair.1, pair.2)
    else
      match repair_func_resolver env debug_state state step0 with
      | .error e => .error e
      | .ok step1 =>
        match repair_exit_handler env state step1 with
        | .error e => .error e
        | .ok step2 =>
          let choices := step2.successors ++ step2.unsat_successors
          let pair := choose_successor env trace state previous_instruction instruction choices state
          .ok (debug_state, pair.1, pair.2)

/-! ## Run loop (`Tracer.run`, tracer.py lines 837-876) -/

/-- Modelled from the spec: a major state (section 3,
`{trace_index, previous_instruction, instruction, state_before,
state_after}`); the `hase.symbex.state.State` class is not under `src/`.
Its register file, read and written by `constrain_registers`, is the
register file of the retained after-state. -/
structure MajorState where
  idx : Nat
  prev_ins : Option Instruction
  ins : Instruction
  state_before : Option SimState
  state_after : SimState

/-- Modelled from the spec: the State Manager (section 4.5), an
append-only collection of major states plus the total expected trace
length; `hase.symbex.state.StateManager` is not under `src/`. -/
structure StateManager where
  major_states : List MajorState
  trace_length : Nat

/-- The register list of `Tracer.constrain_registers`: every
general-purpose, segment and flags register, `rsp` and `rbp` excluded. -/
def overwritten_registers : List String :=
  ["gs", "rip", "rdx", "r15", "rax", "rsi", "rcx", "r14", "fs", "r12",
   "r13", "r10", "r11", "rbx", "r8", "r9", "eflags", "rdi"]

/-- `Tracer.constrain_registers` (tracer.py lines 805-835): on matching
final instruction pointers, assert that the stack pointers also match
(`AssertionError` otherwise) and overwrite the listed registers from
the coredump; on mismatch only warn, leaving the state unchanged. -/
def constrain_registers (coredumpRegs : String → Nat) (s : MajorState) :
    Except RunErr MajorState :=
  if (s.state_after.regs "rip").val = coredumpRegs "rip" then
    if (s.state_after.regs "rsp").val = coredumpRegs "rsp" then
      .ok { s with
        state_after := overwritten_registers.foldl
          (fun st name => setReg st name ⟨coredumpRegs name, false⟩)
          s.state_after }
    else .error .assertRsp
  else .ok s

/-- The edge loop of `Tracer.run`: advance edge by edge, assert both
edge endpoints lie in loaded objects, step via `execute`, and record a
major state at sampled counters.  `interval` and `length` are the
values `run` computes up front. -/
def runGo (env : Env) (trace : List Instruction) (interval length : Nat)
    (edges : List (Instruction × Instruction)) (cnt : Nat) (simstate : SimState)
    (debug_state : List SimState) (states : List MajorState) :
    Except RunErr (List MajorState) :=
  match edges with
  | [] => .ok states
  | (previous_instruction, instruction) :: rest =>
    let cnt := cnt + 1
    if env.validAddr previous_instruction.ip && env.validAddr instruction.ip then
      match execute env trace debug_state simstate previous_instruction instruction with
      | .error e => .error e
      | .ok (dbg, old_simstate, new_simstate) =>
        let states :=
          if cnt % interval == 0 || decide (length - cnt < 15) then
            states ++ [⟨cnt, some previous_instruction, instruction,
                        some old_simstate, new_simstate⟩]
          else states
        runGo env trace interval length rest cnt new_simstate dbg states
    else .error .invalidAddress

/-- `Tracer.run`: record the initial major state at index 0, compute the
sampling interval `max(1, len(trace) // 200)`, process every consecutive
trace pair, then constrain the final major state against the coredump
registers. -/
def run (env : Env) (trace : List Instruction) (startState : SimState)
    (coredumpRegs : String → Nat) : Except RunErr StateManager :=
  match trace with
  | [] => .error .indexError
  | t0 :: rest =>
    let simstate := startState
    let m0 : MajorState := ⟨0, none, t0, none, simstate⟩
    let interval := max 1 (trace.length / 200)
    let length := trace.length - 1
    match runGo env trace interval length (trace.zip rest) 0 simstate [] [m0] with
    | .error e => .error e
    | .ok majors =>
      match majors.getLast? with
      | none => .error .indexError
      | some last =>
        match constrain_registers coredumpRegs last with
        | .error e => .error e
        | .ok last2 => .ok ⟨majors.dropLast ++ [last2], trace.length⟩

/-- The sampling interval of `Tracer.run`: `max(1, len(self.trace) // 200)`
(floor division). -/
def sample_interval (n : Nat) : Nat := max 1 (n / 200)

/-- Modelled from the spec's words, for refinement comparison only:
the spec states the interval as `ceil(trace_length / 200)`. -/
def spec_sample_interval (n : Nat) : Nat := (n + 199) / 200

/-- The trace indices recorded by the edge loop from counter `cnt + 1`
on, over `k` remaining edges, with the given interval and final-15
boundary `length`. -/
def pending_indices (interval length cnt k : Nat) : List Nat :=
  ((List.range k).map (fun j => cnt + 1 + j)).filter
    (fun c => c % interval == 0 || decide (length - c < 15))

/-- The full list of sampled major-state trace indices of a completed
run over a trace of length `n`. -/
def sampled_indices (n : Nat) : List Nat :=
  0 :: pending_indices (sample_interval n) (n - 1) 0 (n - 1)

/-! ## Concrete fixtures for witnesses and counterexamples -/

/-- An absent/zero operand. -/
def defaultOperand : Operand :=
  { type := 0, reg := "", memDisp := 0, memIndex := none, memScale := 0, memBase := none }

/-- A decoded one-byte `nop`. -/
def nopIns : DecodedIns :=
  { mnemonic := "nop", opStr := "", op0 := defaultOperand, op1 := defaultOperand, size := 1 }

/-- A fully concrete zeroed simulator state. -/
def baseState : SimState :=
  { ip := 0, regs := fun _ => ⟨0, false⟩, mem := fun _ => ⟨0, false⟩,
    sat := true, exitHandlers := [] }

/-- An environment whose simulator step always raises. -/
def envStepFail : Env :=
  { decode := fun _ => nopIns, step := fun _ _ => .error (),
    findFunction := fun _ => none, maxStrLen := 2048, validAddr := fun _ => true }

/-- A two-event demo trace. -/
def demoTrace : List Instruction :=
  [⟨5, .ptic_other⟩, ⟨7, .ptic_other⟩]

/-- The value `execute envStepFail demoTrace ...` computes (exception
recovery path). -/
def demoExecResult : List SimState × SimState × SimState :=
  ([baseState], baseState, { baseState with ip := 7 })

/-- A decoded one-byte `ret`. -/
def retIns : DecodedIns :=
  { mnemonic := "ret", opStr := "", op0 := defaultOperand, op1 := defaultOperand, size := 1 }

/-- A state at a `ret` whose concrete saved return address (at `rsp` =
500) is 0x2000, the expected next trace address. -/
def retState : SimState :=
  { ip := 0x1000,
    regs := fun r => if r = "rsp" then ⟨500, false⟩ else ⟨0, false⟩,
    mem := fun a => if a = 500 then ⟨0x2000, false⟩ else ⟨0, false⟩,
    sat := true, exitHandlers := [] }

/-- The natural `ret` successor: return address popped (`rsp` = 508),
control at 0x2000. -/
def retNatural : SimState :=
  setReg { retState with ip := 0x2000 } "rsp" ⟨508, false⟩

/-- Environment for the correct-return scenario: decoding yields `ret`
and the simulator's single step yields exactly the natural successor. -/
def retEnv : Env :=
  { decode := fun _ => retIns,
    step := fun _ _ => .ok
      { successors := [retNatural], unsat_successors := [],
        unconstrained_successors := [], artifactName := none },
    findFunction := fun _ => none, maxStrLen := 2048, validAddr := fun _ => true }

/-- The trace event at the `ret`. -/
def retPrev : Instruction := ⟨0x1000, .ptic_return⟩

/-- The expected return destination event. -/
def retNext : Instruction := ⟨0x2000, .ptic_other⟩

/-- The two-event trace around the return. -/
def retTrace : List Instruction := [retPrev, retNext]

/-- A three-event demo trace for the sampling rule. -/
def c2DemoTrace : List Instruction :=
  [⟨5, .ptic_other⟩, ⟨6, .ptic_other⟩, ⟨7, .ptic_other⟩]

/-- A 201-event trace: the shortest length at which floor and ceiling
division by 200 disagree. -/
def c2LongTrace : List Instruction := List.replicate 201 ⟨5, .ptic_other⟩

/-- Coredump registers all equal to 1 (mismatching `baseState`, so the
final constraining only warns). -/
def regsOne : String → Nat := fun _ => 1

/-- The state manager produced by the three-event demo run. -/
def c2DemoSM : StateManager :=
  match run envStepFail c2DemoTrace baseState regsOne with
  | .ok sm => sm
  | .error _ => ⟨[], 0⟩

/-- The state manager produced by the 201-event run. -/
def c2LongSM : StateManager :=
  match run envStepFail c2LongTrace baseState regsOne with
  | .ok sm => sm
  | .error _ => ⟨[], 0⟩

/-- A final state whose `rip` will match the coredump but whose `rsp`
will not. -/
def mismatchState : SimState :=
  { ip := 1,
    regs := fun r => if r = "rip" then ⟨1, false⟩ else
      if r = "rsp" then ⟨2, false⟩ else ⟨0, false⟩,
    mem := fun _ => ⟨0, false⟩, sat := true, exitHandlers := [] }

/-- A final major state holding `mismatchState`. -/
def mismatchMajor : MajorState :=
  ⟨3, none, ⟨7, .ptic_other⟩, none, mismatchState⟩

/-- Coredump registers agreeing on `rip` (1) but not on `rsp` (99). -/
def mismatchRegs : String → Nat :=
  fun r => if r = "rip" then 1 else if r = "rsp" then 99 else 5

/-- Coredump registers agreeing on both `rip` and `rsp` with
`mismatchState`; every other register reads 9. -/
def agreeRegs : String → Nat :=
  fun r => if r = "rip" then 1 else if r = "rsp" then 2 else 9

/-- An environment for which address 6 is outside every loaded object. -/
def envInvalid : Env :=
  { envStepFail with validAddr := fun a => decide (a ≠ 6) }

/-- A one-region loader table. -/
def demoMaps : List LMapping :=
  [{ path := "/bin/a", name := "a", start := 100, stop := 200, page_offset := 3 }]

/-- A mapping table whose true first entry has a relative path (dropped
by the filter) followed by a library mapping that survives. -/
def promoMaps : List LMapping :=
  [{ path := "[stack]", name := "", start := 0, stop := 10, page_offset := 0 },
   { path := "/lib/x", name := "", start := 77, stop := 99, page_offset := 0 }]

/-- A filesystem oracle on which every file exists and is an ELF image. -/
def allElfFs : String → Option (List Nat) := fun _ => some elf_magic

/-! ## Helper lemmas -/

/-- A fold that replaces its accumulator at every element satisfying `p`
ends at the value of the last such element. -/
theorem foldl_last_update {α β : Type} (l : List α) (p : α → Bool) (g : α → β)
    (acc : β) :
    l.foldl (fun a x => if p x then g x else a) acc =
      ((l.filter p).getLast?).elim acc g := by
  induction l generalizing acc with
  | nil => rfl
  | cons x t ih =>
    rw [List.foldl_cons, ih]
    rcases hft : (t.filter p).getLast? with _ | y
    · have ht : t.filter p = [] := by
        cases hf : t.filter p with
        | nil => rfl
        | cons a b => rw [hf] at hft; simp [List.getLast?] at hft
      cases hx : p x <;> simp [List.filter_cons, hx, ht, Option.elim]
    · have hne : t.filter p ≠ [] := by
        intro hc; rw [hc] at hft; simp at hft
      cases hf : t.filter p with
      | nil => exact absurd hf hne
      | cons a b =>
        rw [hf] at hft
        cases hx : p x <;>
          simp [List.filter_cons, hx, hf, hft, List.getLast?_cons_cons,
            Option.elim]

/-! ## Claims -/

/-- C9: `Tracer.__init__` truncates the trace to the suffix beginning at
the LAST original-trace event whose ip equals the `_start` or `main`
symbol address (each match reassigns `self.trace` to a suffix of the
original trace while the enumeration keeps running over the original, so
the final match wins); with no match the trace is unchanged. -/
theorem c9_trace_truncation (trace : List Instruction) (start main : Option Nat) :
    truncate_trace trace start main =
      (lastEntryMatch trace start main).elim trace (fun p => trace.drop p.1) := by
  unfold truncate_trace lastEntryMatch
  exact foldl_last_update trace.enum (fun p => matchesEntry p.2 start main)
    (fun p => trace.drop p.1) trace

/-- C7: missing debug information is never an error: an unresolvable
register dump (response too short or value line not tab-prefixed) makes
`get_reg` return the default 0; a function absent from the backtrace
makes `stack_base` return `(None, None)`; and the tracer initialization
replaces an absent (or zero, Python falsy) stack/base pointer with the
fixed sentinel `0x7FFFFFFCF00`. -/
theorem c7_missing_debug_info (resp : List String)
    (h1 : resp.length < 5 ∨ strStarts ((resp.get? 2).getD "") "\\t" = false)
    (backtrace : List Frame) (gdbResp : Nat → String → List String) (name : String)
    (h2 : ∀ bt ∈ backtrace, bt.func ≠ name) :
    get_reg resp = .ok 0
    ∧ stack_base backtrace gdbResp name = .ok (none, none)
    ∧ default_sp none = 0x7FFFFFFCF00
    ∧ default_sp (some 0) = 0x7FFFFFFCF00 := by
  refine ⟨?_, ?_, rfl, rfl⟩
  · unfold get_reg
    split
    · rfl
    · rename_i hlen
      have hpre : strStarts ((resp.get? 2).getD "") "\\t" = false := by
        rcases h1 with h | h
        · exact absurd h hlen
        · exact h
      rw [if_pos]
      rw [hpre]
      exact Bool.false_ne_true
  · unfold stack_base
    have hfind : backtrace.find? (fun bt => bt.func = name) = none := by
      rw [List.find?_eq_none]
      intro bt hbt
      simp [h2 bt hbt]
    rw [hfind]

/-- C7 witness: the empty gdb response and the empty backtrace. -/
theorem c7_missing_debug_info_witness :
    get_reg [] = .ok 0
    ∧ stack_base [] (fun _ _ => []) "main" = .ok (none, none)
    ∧ default_sp none = 0x7FFFFFFCF00
    ∧ default_sp (some 0) = 0x7FFFFFFCF00 :=
  c7_missing_debug_info [] (Or.inl (by decide)) [] (fun _ _ => []) "main"
    (by intro bt hbt; cases hbt)

/-- C8: `find_mapping` returns a registered region containing the
address when one exists and `none` otherwise, and `find_location`
renders `0x<ip> (<region>+<offset>)` for a mapped address and the
unmapped indication `0x<ip> (umapped)` otherwise. -/
theorem c8_loader_lookup (shared_objects : List LMapping) (ip : Nat) :
    (∀ m, find_mapping shared_objects ip = some m →
        m ∈ shared_objects ∧ m.start ≤ ip ∧ ip < m.stop)
    ∧ (find_mapping shared_objects ip = none →
        ∀ m ∈ shared_objects, ¬(m.start ≤ ip ∧ ip < m.stop))
    ∧ (find_mapping shared_objects ip = none →
        find_location shared_objects ip = "0x" ++ hexStr ip ++ " (umapped)")
    ∧ (∀ m, find_mapping shared_objects ip = some m →
        find_location shared_objects ip =
          "0x" ++ hexStr ip ++ " (" ++ m.name ++ "+"
            ++ decStr (ip - m.start + m.page_offset * 4096) ++ ")") := by
  refine ⟨?_, ?_, ?_, ?_⟩
  · intro m hm
    have h1 := List.find?_some hm
    have h2 := List.mem_of_find?_eq_some hm
    simp only [Bool.and_eq_true, decide_eq_true_eq] at h1
    exact ⟨h2, h1.1, h1.2⟩
  · intro hnone m hm
    have := List.find?_eq_none.mp hnone m hm
    simp only [Bool.and_eq_true, decide_eq_true_eq] at this
    tauto
  · intro hnone
    unfold find_location
    rw [hnone]
  · intro m hm
    unfold find_location
    rw [hm]

/-- C8 witness: address 150 inside the demo region, rendered as
region+offset with offset 150 - 100 + 3 * 4096 = 12338. -/
theorem c8_loader_lookup_witness :
    find_location demoMaps 150 = "0x" ++ hexStr 150 ++ " (" ++ "a" ++ "+"
      ++ decStr 12338 ++ ")" :=
  (c8_loader_lookup demoMaps 150).2.2.2
    { path := "/bin/a", name := "a", start := 100, stop := 200, page_offset := 3 }
    (by rfl)

/-- C10: `Loader.load_options` indexes the first surviving filtered
mapping unguardedly: an empty filter result is an IndexError failure,
and otherwise the FIRST surviving mapping (which need not be the true
first mapping of the coredump table) becomes the main image base. -/
theorem c10_load_options_first_survivor (mappings : List LMapping)
    (fs : String → Option (List Nat)) (sysroot : String) :
    (filter_mappings mappings fs sysroot = [] →
        loader_load_options mappings fs sysroot = .error .indexError)
    ∧ (∀ m rest, filter_mappings mappings fs sysroot = m :: rest →
        ∃ opts, loader_load_options mappings fs sysroot = .ok opts
          ∧ opts.main_base = m.start) := by
  constructor
  · intro h
    unfold loader_load_options
    rw [h]
    rfl
  · intro m rest h
    unfold loader_load_options load_options
    rw [h]
    exact ⟨_, rfl, rfl⟩

/-- Satness repair does not move the instruction pointer. -/
theorem repair_satness_ip (a b : SimState) : (repair_satness a b).ip = b.ip := by
  unfold repair_satness; split <;> rfl

/-- Satness repair does not touch the register file. -/
theorem repair_satness_regs (a b : SimState) : (repair_satness a b).regs = b.regs := by
  unfold repair_satness; split <;> rfl

/-- Satness repair does not touch memory. -/
theorem repair_satness_mem (a b : SimState) : (repair_satness a b).mem = b.mem := by
  unfold repair_satness; split <;> rfl

/-- Satness repair does not touch the exit-handler list. -/
theorem repair_satness_exitHandlers (a b : SimState) :
    (repair_satness a b).exitHandlers = b.exitHandlers := by
  unfold repair_satness; split <;> rfl

/-- Syscall-ip repair does not move the instruction pointer. -/
theorem repair_ip_at_syscall_ip (env : Env) (a b : SimState) :
    (repair_ip_at_syscall env a b).ip = b.ip := by
  unfold repair_ip_at_syscall setReg; split <;> rfl

/-- Syscall-ip repair does not touch memory. -/
theorem repair_ip_at_syscall_mem (env : Env) (a b : SimState) :
    (repair_ip_at_syscall env a b).mem = b.mem := by
  unfold repair_ip_at_syscall setReg; split <;> rfl

/-- Syscall-ip repair does not touch the exit-handler list. -/
theorem repair_ip_at_syscall_exitHandlers (env : Env) (a b : SimState) :
    (repair_ip_at_syscall env a b).exitHandlers = b.exitHandlers := by
  unfold repair_ip_at_syscall setReg; split <;> rfl

/-- Syscall-ip repair only ever writes the `ip_at_syscall` register. -/
theorem repair_ip_at_syscall_regs_ne (env : Env) (a b : SimState) (r : String)
    (hr : r ≠ "ip_at_syscall") :
    (repair_ip_at_syscall env a b).regs r = b.regs r := by
  unfold repair_ip_at_syscall setReg
  split
  · simp [hr]
  · rfl

/-- `post_execute` does not move the instruction pointer. -/
theorem post_execute_ip (env : Env) (a b : SimState) :
    (post_execute env a b).ip = b.ip := by
  unfold post_execute; rw [repair_ip_at_syscall_ip, repair_satness_ip]

/-- `post_execute` does not touch memory. -/
theorem post_execute_mem (env : Env) (a b : SimState) :
    (post_execute env a b).mem = b.mem := by
  unfold post_execute; rw [repair_ip_at_syscall_mem, repair_satness_mem]

/-- `post_execute` does not touch the exit-handler list. -/
theorem post_execute_exitHandlers (env : Env) (a b : SimState) :
    (post_execute env a b).exitHandlers = b.exitHandlers := by
  unfold post_execute
  rw [repair_ip_at_syscall_exitHandlers, repair_satness_exitHandlers]

/-- `post_execute` only ever writes the `ip_at_syscall` register. -/
theorem post_execute_regs_ne (env : Env) (a b : SimState) (r : String)
    (hr : r ≠ "ip_at_syscall") :
    (post_execute env a b).regs r = b.regs r := by
  unfold post_execute
  rw [repair_ip_at_syscall_regs_ne env _ _ r hr, repair_satness_regs]

/-- A choice accepted by `last_match` sits at the expected destination. -/
theorem last_match_ip (trace : List Instruction) (c : SimState) (i : Instruction)
    (h : last_match trace c i = true) : c.ip = i.ip := by
  unfold last_match at h
  split at h
  · simp only [Bool.and_eq_true, beq_iff_eq] at h
    exact h.2
  · cases h

/-- Whatever the candidate list, the second component of the
successor-choice loop lands on the expected destination. -/
theorem choose_successor_snd_ip (env : Env) (trace : List Instruction)
    (old_state : SimState) (p i : Instruction) (choices : List SimState)
    (state : SimState) :
    ((choose_successor env trace old_state p i choices state).2).ip = i.ip := by
  induction choices with
  | nil => rfl
  | cons c rest ih =>
    unfold choose_successor
    split
    · rename_i hlm
      exact last_match_ip trace c i hlm
    · split
      · rename_i hjm
        rw [post_execute_ip]
        simp only [jump_match, beq_iff_eq] at hjm
        exact hjm
      · exact ih

/-- Any successful `execute` yields a new state at the expected
destination, over all control paths. -/
theorem execute_ok_ip (env : Env) (trace : List Instruction) (dbg : List SimState)
    (state : SimState) (p i : Instruction)
    (r : List SimState × SimState × SimState)
    (h : execute env trace dbg state p i = .ok r) : r.2.2.ip = i.ip := by
  simp only [execute] at h
  split at h
  · injection h with h
    subst h
    simp [post_execute_ip]
  · split at h
    · injection h with h
      subst h
      simp [choose_successor_snd_ip]
    · split at h
      · exact Except.noConfusion h
      · split at h
        · exact Except.noConfusion h
        · injection h with h
          subst h
          simp [choose_successor_snd_ip]

/-- C1: replay fidelity — whenever `execute()` returns for trace step
`i`, the produced simulator state's instruction pointer equals
`filtered_trace[i].ip`, on every path through `execute` (forced jump,
natural-successor match, last-match self-loop, step-exception recovery,
and the final forced fallback). -/
theorem c1_replay_fidelity (env : Env) (trace : List Instruction)
    (debug_state : List SimState) (state : SimState)
    (previous_instruction : Instruction) (i : Fin trace.length)
    (r : List SimState × SimState × SimState)
    (h : execute env trace debug_state state previous_instruction (trace.get i)
      = .ok r) :
    r.2.2.ip = (trace.get i).ip :=
  execute_ok_ip env trace debug_state state previous_instruction (trace.get i) r h

/-- C1 witness: step 1 of the two-event demo trace lands on ip 7. -/
theorem c1_replay_fidelity_witness : demoExecResult.2.2.ip = 7 :=
  c1_replay_fidelity envStepFail demoTrace [] baseState ⟨5, .ptic_other⟩
    ⟨1, by decide⟩ demoExecResult (by rfl)

/-- C4: a raised simulator step is recovered locally — `execute()` still
returns (never propagating the exception), its new state is a copy of
the prior state with only the instruction pointer forced to the expected
destination (plus at most the bookkeeping `ip_at_syscall` register and
the constraint store), so the run loop continues. -/
theorem c4_step_exception_recovery (env : Env) (trace : List Instruction)
    (debug_state : List SimState) (state : SimState)
    (previous_instruction instruction : Instruction)
    (h : ∀ s a, env.step s a = .error ()) :
    ∃ d o n,
      execute env trace debug_state state previous_instruction instruction
        = .ok (d, o, n)
      ∧ n.ip = instruction.ip
      ∧ n.mem = o.mem
      ∧ n.exitHandlers = o.exitHandlers
      ∧ ∀ rn, rn ≠ "ip_at_syscall" → n.regs rn = o.regs rn := by
  refine ⟨pushRecent debug_state state,
    repair_alloca_ins env (repair_jump_ins env state previous_instruction instruction).2,
    post_execute env
      (repair_alloca_ins env (repair_jump_ins env state previous_instruction instruction).2)
      { repair_alloca_ins env (repair_jump_ins env state previous_instruction instruction).2
          with ip := instruction.ip },
    ?_, ?_, ?_, ?_, ?_⟩
  · simp only [execute, h]
  · rw [post_execute_ip]
  · rw [post_execute_mem]
  · rw [post_execute_exitHandlers]
  · intro rn hrn
    rw [post_execute_regs_ne env _ _ rn hrn]

/-- C4 witness: under an always-raising step oracle, the demo edge still
produces a state at the expected ip 7. -/
theorem c4_step_exception_recovery_witness :
    (execute envStepFail demoTrace [] baseState ⟨5, .ptic_other⟩
      ⟨7, .ptic_other⟩).map (fun r => r.2.2.ip) = .ok 7 := by
  obtain ⟨d, o, n, h1, h2, _⟩ :=
    c4_step_exception_recovery envStepFail demoTrace [] baseState
      ⟨5, .ptic_other⟩ ⟨7, .ptic_other⟩ (fun _ _ => rfl)
  rw [h1]
  simp [Except.map, h2]

/-- C3 (code bug): for a return whose concrete saved address equals the
expected next trace address, `repair_jump_ins` answers `(True, "ok")`,
so `execute()` takes the forced path — it bypasses the simulator's
natural successors (which were available, with the return address
popped: rsp 508) and returns a direct-ip copy of the prior state with
rsp still 500, the return address never popped.  The claim (and spec
section 8) requires the natural-successor path here. -/
theorem c3_forced_return_bypasses_step :
    (repair_jump_ins retEnv retState retPrev retNext).1 = (true, "ok")
    ∧ (execute retEnv retTrace [] retState retPrev retNext).map
        (fun r => (r.2.2.ip, (r.2.2.regs "rsp").val)) = .ok (0x2000, 500)
    ∧ (retEnv.step retState 0x1000).map
        (fun s => s.successors.map (fun c => (c.ip, (c.regs "rsp").val)))
      = .ok [(0x2000, 508)]
    ∧ (500 : Nat) ≠ 508 :=
  ⟨rfl, rfl, rfl, by decide⟩

/-- C10 witness: a mapping table whose first entry has a relative path;
the surviving library at base 77 is silently promoted to main. -/
theorem c10_load_options_first_survivor_witness :
    (loader_load_options promoMaps allElfFs "").map (fun o => o.main_base)
      = .ok 77 := by
  obtain ⟨opts, h1, h2⟩ :=
    (c10_load_options_first_survivor promoMaps allElfFs "").2
      { path := "/lib/x", name := joinPath "" "lib/x", start := 77, stop := 99,
        page_offset := 0 } [] (by rfl)
  rw [h1, Except.map, h2]

/-- Unfolding the pending sampled indices over one more edge. -/
theorem pending_indices_succ (interval length cnt k : Nat) :
    pending_indices interval length cnt (k + 1) =
      (if ((cnt + 1) % interval == 0 || decide (length - (cnt + 1) < 15)) = true
        then [cnt + 1] else [])
      ++ pending_indices interval length (cnt + 1) k := by
  unfold pending_indices
  rw [List.range_succ_eq_map]
  simp only [List.map_cons, List.map_map, Nat.add_zero, List.filter_cons]
  have hmap : (List.range k).map ((fun j => cnt + 1 + j) ∘ Nat.succ)
      = (List.range k).map (fun j => cnt + 1 + 1 + j) := by
    congr 1
    funext j
    simp [Function.comp]
    omega
  rw [hmap]
  split <;> simp

/-- A completed edge loop appends exactly the pending sampled indices to
the already recorded ones. -/
theorem runGo_ok_indices (env : Env) (trace : List Instruction)
    (interval length : Nat) :
    ∀ (edges : List (Instruction × Instruction)) (cnt : Nat) (s : SimState)
      (dbg : List SimState) (states out : List MajorState),
      runGo env trace interval length edges cnt s dbg states = .ok out →
      out.map (fun m => m.idx)
        = states.map (fun m => m.idx)
          ++ pending_indices interval length cnt edges.length := by
  intro edges
  induction edges with
  | nil =>
    intro cnt s dbg states out h
    simp only [runGo] at h
    injection h with h
    subst h
    simp [pending_indices]
  | cons e rest ih =>
    intro cnt s dbg states out h
    obtain ⟨p, i⟩ := e
    simp only [runGo] at h
    split at h
    · split at h
      · exact Except.noConfusion h
      · rename_i hex
        have hmap := ih (cnt + 1) _ _ _ out h
        rw [hmap, List.length_cons, pending_indices_succ]
        by_cases hc : ((cnt + 1) % interval == 0
            || decide (length - (cnt + 1) < 15)) = true
        · rw [if_pos hc, if_pos hc]
          simp
        · rw [if_neg hc, if_neg hc]
          simp
    · exact Except.noConfusion h

/-- Constraining the final state never changes its trace index. -/
theorem constrain_registers_idx (cr : String → Nat) (s s2 : MajorState)
    (h : constrain_registers cr s = .ok s2) : s2.idx = s.idx := by
  unfold constrain_registers at h
  split at h
  · split at h
    · injection h with h
      subst h
      rfl
    · exact Except.noConfusion h
  · injection h with h
    subst h
    rfl

/-- The register-overwrite fold leaves unlisted registers untouched. -/
theorem foldl_setReg_not_mem :
    ∀ (names : List String) (cr : String → Nat) (st : SimState) (r : String),
      r ∉ names →
      (names.foldl (fun acc name => setReg acc name ⟨cr name, false⟩) st).regs r
        = st.regs r := by
  intro names cr
  induction names with
  | nil => intro st r _; rfl
  | cons n t ih =>
    intro st r hr
    have hrn : r ≠ n := fun hc => hr (hc ▸ List.mem_cons_self n t)
    have hrt : r ∉ t := fun hc => hr (List.mem_cons_of_mem n hc)
    rw [List.foldl_cons, ih _ r hrt]
    simp [setReg, hrn]

/-- The register-overwrite fold writes every listed register with its
coredump value. -/
theorem foldl_setReg_mem :
    ∀ (names : List String) (cr : String → Nat) (st : SimState) (r : String),
      r ∈ names →
      (names.foldl (fun acc name => setReg acc name ⟨cr name, false⟩) st).regs r
        = ⟨cr r, false⟩ := by
  intro names cr
  induction names with
  | nil => intro st r hr; cases hr
  | cons n t ih =>
    intro st r hr
    rw [List.foldl_cons]
    by_cases hrt : r ∈ t
    · exact ih _ r hrt
    · have hrn : r = n := by
        rcases List.mem_cons.mp hr with h | h
        · exact h
        · exact absurd h hrt
      rw [foldl_setReg_not_mem t cr _ r hrt]
      subst hrn
      simp [setReg]

/-- C2 (amended): every completed run records major states exactly at
trace index 0, then at every counter that is a multiple of
`max(1, floor(trace_length / 200))`, and unconditionally at each of the
final 15 steps — a deterministic function of the trace length alone. -/
theorem c2_sampling_rule (env : Env) (trace : List Instruction)
    (startState : SimState) (coredumpRegs : String → Nat) (sm : StateManager)
    (h : run env trace startState coredumpRegs = .ok sm) :
    sm.major_states.map (fun m => m.idx) = sampled_indices trace.length
    ∧ sm.trace_length = trace.length := by
  cases trace with
  | nil => exact Except.noConfusion h
  | cons t0 rest =>
    simp only [run] at h
    split at h
    · exact Except.noConfusion h
    · rename_i majors hrg
      split at h
      · exact Except.noConfusion h
      · rename_i last hlast
        split at h
        · exact Except.noConfusion h
        · rename_i last2 hcon
          injection h with h
          subst h
          refine ⟨?_, rfl⟩
          have hidx2 : last2.idx = last.idx := constrain_registers_idx _ _ _ hcon
          have hne : majors ≠ [] := by
            intro hc
            rw [hc] at hlast
            exact Option.noConfusion hlast
          have hgl : majors.getLast hne = last := by
            have hq := List.getLast?_eq_getLast majors hne
            rw [hq] at hlast
            injection hlast
          have hmap := runGo_ok_indices env (t0 :: rest)
            (max 1 ((t0 :: rest).length / 200)) ((t0 :: rest).length - 1)
            ((t0 :: rest).zip rest) 0 startState [] [⟨0, none, t0, none, startState⟩]
            majors hrg
          have hstep : (majors.dropLast ++ [last2]).map (fun m => m.idx)
              = majors.map (fun m => m.idx) := by
            conv_rhs => rw [← List.dropLast_append_getLast hne]
            rw [List.map_append, List.map_append, hgl]
            simp [hidx2]
          rw [hstep, hmap]
          have hzip : ((t0 :: rest).zip rest).length = rest.length := by
            rw [List.length_zip]
            simp
          rw [hzip]
          simp only [List.map_cons, List.map_nil]
          show 0 :: pending_indices _ _ 0 rest.length = sampled_indices _
          unfold sampled_indices sample_interval
          simp

/-- C2 witness: the three-event demo run samples exactly the indices
[0, 1, 2]. -/
theorem c2_sampling_rule_witness :
    c2DemoSM.major_states.map (fun m => m.idx) = sampled_indices 3 :=
  (c2_sampling_rule envStepFail c2DemoTrace baseState regsOne c2DemoSM rfl).1

/-- C2 counterexample: at trace length 201 the code's interval
`max(1, 201 // 200) = 1` differs from the claimed `ceil(201/200) = 2`;
the actual run over 201 events records a major state at trace index 1,
which the claimed rule excludes (1 is not a multiple of 2 and is not
among the final 15 steps). -/
theorem c2_sampling_counterexample :
    sample_interval 201 = 1
    ∧ spec_sample_interval 201 = 2
    ∧ (run envStepFail c2LongTrace baseState regsOne).map
        (fun sm => sm.major_states.map (fun m => m.idx))
      = .ok (sampled_indices 201)
    ∧ 1 ∈ sampled_indices 201
    ∧ ¬(1 % spec_sample_interval 201 = 0 ∨ (201 - 1) - 1 < 15) := by
  refine ⟨rfl, rfl, ?_, by decide, by decide⟩
  have h : run envStepFail c2LongTrace baseState regsOne = .ok c2LongSM := rfl
  have hs := (c2_sampling_rule envStepFail c2LongTrace baseState regsOne c2LongSM h).1
  rw [h]
  simp only [Except.map]
  rw [hs]
  rfl

/-- C5 (amended): finalization overwrites every listed general-purpose,
segment and flags register (never `rsp`/`rbp`) from the coredump only
when BOTH the final instruction pointer AND the stack pointer match the
coredump; a matching `rip` with a mismatching `rsp` raises an
AssertionError; a mismatching `rip` leaves the state untouched and the
run still completes, returning the full history with only a warning. -/
theorem c5_finalization (cr : String → Nat) (s : MajorState) :
    ((s.state_after.regs "rip").val = cr "rip" →
      (s.state_after.regs "rsp").val = cr "rsp" →
      ∃ s2, constrain_registers cr s = .ok s2
        ∧ (∀ r ∈ overwritten_registers, s2.state_after.regs r = ⟨cr r, false⟩)
        ∧ s2.state_after.regs "rsp" = s.state_after.regs "rsp"
        ∧ s2.state_after.regs "rbp" = s.state_after.regs "rbp")
    ∧ ((s.state_after.regs "rip").val = cr "rip" →
      (s.state_after.regs "rsp").val ≠ cr "rsp" →
      constrain_registers cr s = .error .assertRsp)
    ∧ ((s.state_after.regs "rip").val ≠ cr "rip" →
      constrain_registers cr s = .ok s)
    ∧ (∀ (env : Env) (t0 : Instruction) (rest : List Instruction) (s0 : SimState)
        (majors : List MajorState) (last : MajorState),
        runGo env (t0 :: rest) (max 1 ((t0 :: rest).length / 200))
          ((t0 :: rest).length - 1) ((t0 :: rest).zip rest) 0 s0 []
          [⟨0, none, t0, none, s0⟩] = .ok majors →
        majors.getLast? = some last →
        (last.state_after.regs "rip").val ≠ cr "rip" →
        run env (t0 :: rest) s0 cr = .ok ⟨majors, (t0 :: rest).length⟩) := by
  refine ⟨?_, ?_, ?_, ?_⟩
  · intro h1 h2
    unfold constrain_registers
    rw [if_pos h1, if_pos h2]
    refine ⟨_, rfl, ?_, ?_, ?_⟩
    · intro r hr
      exact foldl_setReg_mem overwritten_registers cr s.state_after r hr
    · exact foldl_setReg_not_mem overwritten_registers cr s.state_after "rsp"
        (by decide)
    · exact foldl_setReg_not_mem overwritten_registers cr s.state_after "rbp"
        (by decide)
  · intro h1 h2
    unfold constrain_registers
    rw [if_pos h1, if_neg h2]
  · intro h1
    unfold constrain_registers
    rw [if_neg h1]
  · intro env t0 rest s0 majors last hrg hlast hmis
    have hcon : constrain_registers cr last = .ok last := by
      unfold constrain_registers
      rw [if_neg hmis]
    have hne : majors ≠ [] := by
      intro hc
      rw [hc] at hlast
      exact Option.noConfusion hlast
    have hgl : majors.getLast hne = last := by
      have hq := List.getLast?_eq_getLast majors hne
      rw [hq] at hlast
      injection hlast
    simp only [run, hrg, hlast, hcon]
    rw [← hgl, List.dropLast_append_getLast hne]

/-- C5 witness: with both `rip` and `rsp` agreeing, `rax` is overwritten
with the coredump's 9 while `rsp` keeps its simulated value. -/
theorem c5_finalization_witness :
    (constrain_registers agreeRegs mismatchMajor).map
      (fun s2 => ((s2.state_after.regs "rax").val, s2.state_after.regs "rsp"))
      = .ok (9, ⟨2, false⟩) := by
  obtain ⟨s2, h1, h2, h3, _⟩ := (c5_finalization agreeRegs mismatchMajor).1 rfl rfl
  rw [h1]
  simp only [Except.map]
  rw [h2 "rax" (by decide), h3]
  rfl

/-- C5 counterexample: a final state whose instruction pointer matches
the coredump's but whose stack pointer does not — the claim promises the
register overwrite, yet `constrain_registers` raises an AssertionError
instead, so `run()` aborts and no register is overwritten. -/
theorem c5_finalization_counterexample :
    (mismatchMajor.state_after.regs "rip").val = mismatchRegs "rip"
    ∧ constrain_registers mismatchRegs mismatchMajor = .error .assertRsp :=
  ⟨rfl, rfl⟩

/-- C6: any edge whose endpoints both lie in loaded objects proceeds to
`execute()` (whose outcome alone determines the loop's continuation),
while an edge with an endpoint outside every loaded object aborts the
run before that edge is stepped; consequently a loop that returns
successfully only ever processed valid edges. -/
theorem c6_invalid_address_fatality (env : Env) (trace : List Instruction)
    (interval length : Nat) :
    (∀ edges cnt s dbg states out,
        runGo env trace interval length edges cnt s dbg states = .ok out →
        ∀ e ∈ edges, env.validAddr e.1.ip = true ∧ env.validAddr e.2.ip = true)
    ∧ (∀ p i rest cnt s dbg states,
        ¬(env.validAddr p.ip = true ∧ env.validAddr i.ip = true) →
        runGo env trace interval length ((p, i) :: rest) cnt s dbg states
          = .error .invalidAddress)
    ∧ (∀ p i rest cnt s dbg states e,
        env.validAddr p.ip = true → env.validAddr i.ip = true →
        execute env trace dbg s p i = .error e →
        runGo env trace interval length ((p, i) :: rest) cnt s dbg states
          = .error e)
    ∧ (∀ p i rest cnt s dbg states d o n,
        env.validAddr p.ip = true → env.validAddr i.ip = true →
        execute env trace dbg s p i = .ok (d, o, n) →
        runGo env trace interval length ((p, i) :: rest) cnt s dbg states
          = runGo env trace interval length rest (cnt + 1) n d
              (if ((cnt + 1) % interval == 0 || decide (length - (cnt + 1) < 15))
                  = true
               then states ++ [⟨cnt + 1, some p, i, some o, n⟩] else states)) := by
  refine ⟨?_, ?_, ?_, ?_⟩
  · intro edges
    induction edges with
    | nil => intro cnt s dbg states out _ e he; cases he
    | cons pr rest ih =>
      intro cnt s dbg states out h e he
      obtain ⟨p, i⟩ := pr
      simp only [runGo] at h
      split at h
      · rename_i hval
        simp only [Bool.and_eq_true] at hval
        split at h
        · exact Except.noConfusion h
        · rcases List.mem_cons.mp he with he | he
          · subst he
            exact hval
          · exact ih _ _ _ _ _ h e he
      · exact Except.noConfusion h
  · intro p i rest cnt s dbg states hval
    have hb : ¬((env.validAddr p.ip && env.validAddr i.ip) = true) := by
      simp only [Bool.and_eq_true]
      exact hval
    simp only [runGo]
    rw [if_neg hb]
  · intro p i rest cnt s dbg states e h1 h2 hex
    simp only [runGo, h1, h2, Bool.and_self, if_true, hex]
  · intro p i rest cnt s dbg states d o n h1 h2 hex
    simp only [runGo, h1, h2, Bool.and_self, if_true, hex]

/-- C6 witness: the edge 5 → 6 with 6 outside every loaded object aborts
the loop with the invalid-address failure. -/
theorem c6_invalid_address_fatality_witness :
    runGo envInvalid demoTrace 1 1 [(⟨5, .ptic_other⟩, ⟨6, .ptic_other⟩)] 0
      baseState [] [] = .error .invalidAddress :=
  (c6_invalid_address_fatality envInvalid demoTrace 1 1).2.1
    ⟨5, .ptic_other⟩ ⟨6, .ptic_other⟩ [] 0 baseState [] [] (by decide)

end Hase
